import Mathlib

/-!
# Startup registration of the JWT key managers (`go/jwt/jwt.go`)

`jwt.go` holds one function, `init`, which registers seven key managers with the
process-wide registry and panics at the first registration that returns an error.

The registry package (`go/core/registry`) and the seven manager types are declared
outside `jwt.go`.  `init` is therefore embedded with `registry.RegisterKeyManager`
and the `%v` rendering of an error as parameters; the registry itself is modelled
from the specification (§4.1) in `register` / `lookup`.
-/

namespace Jwt

/-- A TypeURL is a string; the registry matches it exactly. -/
abbrev TypeURL := String

/-- A key manager value.  Managers are stateless and own no key material, so a value
built by `new(T)` is determined by its implementation type `T`: the seven
constructors are the seven Go types that `init` instantiates, in the spelling of
`jwt.go`; `other name` is any implementation that is not one of them. -/
inductive KeyManager where
  | jwtHMACKeyManager
  | jwtECDSAVerifierKeyManager
  | jwtECDSASignerKeyManager
  | jwtRSSignerKeyManager
  | jwtRSVerifierKeyManager
  | jwtPSSignerKeyManager
  | jwtPSVerifierKeyManager
  | other (name : String)
  deriving DecidableEq, Repr

/-- How a run of `init` ends: it reaches the end of its body, or it calls `panic`
with a message.  Either way the registry state at that moment is kept. -/
inductive Outcome (σ : Type) where
  | returned (s : σ)
  | panicked (s : σ) (msg : String)
  deriving DecidableEq

/-- The state in which the run ended. -/
def Outcome.state {σ : Type} : Outcome σ → σ
  | .returned s => s
  | .panicked s _ => s

/-- The panic message, if the run panicked. -/
def Outcome.panicMsg {σ : Type} : Outcome σ → Option String
  | .returned _ => none
  | .panicked _ msg => some msg

/-- `jwt.go`, lines 26-48.  `RegisterKeyManager m s` is one call of
`registry.RegisterKeyManager(m)` in registry state `s`: it gives the returned error
(`none` for `nil`) and the state after the call.  `verbV err` is what `%v` prints
for `err`. -/
def init {σ ε : Type} (RegisterKeyManager : KeyManager → σ → Option ε × σ)
    (verbV : ε → String) (s0 : σ) : Outcome σ :=
  match RegisterKeyManager .jwtHMACKeyManager s0 with
  | (some err, s1) =>
    .panicked s1 ("jwt.init() failed registering JWT HMAC key manager: " ++ verbV err)
  | (none, s1) =>
  match RegisterKeyManager .jwtECDSAVerifierKeyManager s1 with
  | (some err, s2) =>
    .panicked s2 ("jwt.init() failed registering JWT ECDSA verifier key manager: " ++ verbV err)
  | (none, s2) =>
  match RegisterKeyManager .jwtECDSASignerKeyManager s2 with
  | (some err, s3) =>
    .panicked s3 ("jwt.init() failed registering JWT ECDSA signer key manager: " ++ verbV err)
  | (none, s3) =>
  match RegisterKeyManager .jwtRSSignerKeyManager s3 with
  | (some err, s4) =>
    .panicked s4
      ("jwt.init() failed registering JWT RSA SSA PKCS1 signer key manager: " ++ verbV err)
  | (none, s4) =>
  match RegisterKeyManager .jwtRSVerifierKeyManager s4 with
  | (some err, s5) =>
    .panicked s5
      ("jwt.init() failed registering JWT RSA SSA PKCS1 verifier key manager: " ++ verbV err)
  | (none, s5) =>
  match RegisterKeyManager .jwtPSSignerKeyManager s5 with
  | (some err, s6) =>
    .panicked s6
      ("jwt.init() failed registering JWT RSA SSA PSS signer key manager: " ++ verbV err)
  | (none, s6) =>
  match RegisterKeyManager .jwtPSVerifierKeyManager s6 with
  | (some err, s7) =>
    .panicked s7
      ("jwt.init() failed registering JWT RSA SSA PSS verifier key manager: " ++ verbV err)
  | (none, s7) => .returned s7

/-- A registry that also records every call made to it: the manager passed and the
error returned.  Running `init` against it yields the calls `init` makes. -/
def recording {σ ε : Type} (RegisterKeyManager : KeyManager → σ → Option ε × σ)
    (m : KeyManager) (st : σ × List (KeyManager × Option ε)) :
    Option ε × (σ × List (KeyManager × Option ε)) :=
  match RegisterKeyManager m st.1 with
  | (err, s) => (err, (s, st.2 ++ [(m, err)]))

/-- The register calls of one run of `init` from state `s0`, in order, each with the
error it returned. -/
def calls {σ ε : Type} (RegisterKeyManager : KeyManager → σ → Option ε × σ)
    (verbV : ε → String) (s0 : σ) : List (KeyManager × Option ε) :=
  (init (recording RegisterKeyManager) verbV (s0, [])).state.2

/-- A stand-in registry for running `init` on its own: it keeps no state, returns the
error `"refused"` for the manager `bad` and `nil` for every other manager.  An error
is its own text. -/
def refusing (bad : KeyManager) (m : KeyManager) (s : Unit) : Option String × Unit :=
  if m = bad then (some "refused", s) else (none, s)

/-! ## The registry, from the specification -/

/-- Modelled from the spec: the registry state of `go/core/registry`, which is not
part of `jwt.go`.  §3: the registry owns a mapping from TypeURL to key manager, at
most one manager per TypeURL. -/
abbrev Registry := TypeURL → Option KeyManager

/-- Modelled from the spec: the error kinds of the registry (§7); the registry
package is not part of `jwt.go`. -/
inductive RegistryError where
  | RegistrationConflict
  | UnsupportedTypeURL
  deriving DecidableEq, Repr

/-- Modelled from the spec: `register(manager)` of §4.1 (Go:
`registry.RegisterKeyManager`, declared outside `jwt.go`).  No entry for the
manager's TypeURL: store it and succeed.  An entry holding the same manager
implementation: succeed, nothing changes.  An entry holding a different
implementation: fail with `RegistrationConflict`, the entry untouched.
`typeURL` is the `TypeURL()` method of the managers. -/
def register (typeURL : KeyManager → TypeURL) (m : KeyManager) (r : Registry) :
    Option RegistryError × Registry :=
  match r (typeURL m) with
  | none => (none, Function.update r (typeURL m) (some m))
  | some existing =>
    if existing = m then (none, r) else (some .RegistrationConflict, r)

deriving instance DecidableEq for Except

/-- Modelled from the spec: `lookup(typeURL)` of §4.1 (declared outside `jwt.go`):
the manager stored under exactly this TypeURL, or `UnsupportedTypeURL`. -/
def lookup (r : Registry) (u : TypeURL) : Except RegistryError KeyManager :=
  match r u with
  | some m => .ok m
  | none => .error .UnsupportedTypeURL

/-! ## Names used to state the properties -/

/-- The registration order as the specification lists it: HMAC, ECDSA verifier,
ECDSA signer, RSA-PKCS1 signer, RSA-PKCS1 verifier, RSA-PSS signer, RSA-PSS
verifier. -/
def registrationOrder : List KeyManager :=
  [.jwtHMACKeyManager, .jwtECDSAVerifierKeyManager, .jwtECDSASignerKeyManager,
   .jwtRSSignerKeyManager, .jwtRSVerifierKeyManager, .jwtPSSignerKeyManager,
   .jwtPSVerifierKeyManager]

/-- Algorithm families of §4.3. -/
inductive Family where
  | HMAC
  | ECDSA
  | RSAPKCS1
  | RSAPSS
  deriving DecidableEq, Repr

/-- Roles of the asymmetric managers of §4.3. -/
inductive Role where
  | signer
  | verifier
  deriving DecidableEq, Repr

/-- The family a manager type belongs to, read off its Go type name (`RS` is
RSA-PKCS1, `PS` is RSA-PSS). -/
def family : KeyManager → Option Family
  | .jwtHMACKeyManager => some .HMAC
  | .jwtECDSAVerifierKeyManager => some .ECDSA
  | .jwtECDSASignerKeyManager => some .ECDSA
  | .jwtRSSignerKeyManager => some .RSAPKCS1
  | .jwtRSVerifierKeyManager => some .RSAPKCS1
  | .jwtPSSignerKeyManager => some .RSAPSS
  | .jwtPSVerifierKeyManager => some .RSAPSS
  | .other _ => none

/-- The role a manager type has, read off its Go type name; the symmetric HMAC
manager signs and verifies and has no role of its own. -/
def role : KeyManager → Option Role
  | .jwtECDSAVerifierKeyManager => some .verifier
  | .jwtECDSASignerKeyManager => some .signer
  | .jwtRSSignerKeyManager => some .signer
  | .jwtRSVerifierKeyManager => some .verifier
  | .jwtPSSignerKeyManager => some .signer
  | .jwtPSVerifierKeyManager => some .verifier
  | _ => none

/-- How a family is written in a diagnostic. -/
def Family.text : Family → String
  | .HMAC => "HMAC"
  | .ECDSA => "ECDSA"
  | .RSAPKCS1 => "RSA SSA PKCS1"
  | .RSAPSS => "RSA SSA PSS"

/-- How a role is written in a diagnostic. -/
def Role.text : Role → String
  | .signer => "signer"
  | .verifier => "verifier"

/-- The words that name a manager: its family, then its role if it has one. -/
def describe (m : KeyManager) : String :=
  (match family m with
   | some f => f.text
   | none => "") ++
  (match role m with
   | some ρ => " " ++ ρ.text
   | none => "")

/-- The diagnostic that names manager `m` and carries the error text `errText`. -/
def diagnostic (m : KeyManager) (errText : String) : String :=
  "jwt.init() failed registering JWT " ++ describe m ++ " key manager: " ++ errText

/-- The seven JWT managers have pairwise distinct TypeURLs. -/
def DistinctTypeURLs (typeURL : KeyManager → TypeURL) : Prop :=
  ∀ a ∈ registrationOrder, ∀ b ∈ registrationOrder, typeURL a = typeURL b → a = b

/-! ## Sample data for evaluating the definitions -/

/-- A sample `TypeURL()` assignment: the HMAC one is quoted in §6, the other six
follow the same convention; another implementation claims the TypeURL it is named
after. -/
def sampleTypeURL : KeyManager → TypeURL
  | .jwtHMACKeyManager => "type.googleapis.com/google.crypto.tink.JwtHmacKey"
  | .jwtECDSAVerifierKeyManager => "type.googleapis.com/google.crypto.tink.JwtEcdsaPublicKey"
  | .jwtECDSASignerKeyManager => "type.googleapis.com/google.crypto.tink.JwtEcdsaPrivateKey"
  | .jwtRSSignerKeyManager => "type.googleapis.com/google.crypto.tink.JwtRsaSsaPkcs1PrivateKey"
  | .jwtRSVerifierKeyManager => "type.googleapis.com/google.crypto.tink.JwtRsaSsaPkcs1PublicKey"
  | .jwtPSSignerKeyManager => "type.googleapis.com/google.crypto.tink.JwtRsaSsaPssPrivateKey"
  | .jwtPSVerifierKeyManager => "type.googleapis.com/google.crypto.tink.JwtRsaSsaPssPublicKey"
  | .other name => name

/-- A sample `%v` rendering of the registry errors: the name of the kind. -/
def sampleVerbV : RegistryError → String
  | .RegistrationConflict => "RegistrationConflict"
  | .UnsupportedTypeURL => "UnsupportedTypeURL"

/-- The registry with no entry. -/
def emptyRegistry : Registry := fun _ => none

/-- A registry in which another implementation already holds the TypeURL of the
JWT ECDSA signer manager. -/
def signerTaken : Registry :=
  Function.update emptyRegistry (sampleTypeURL .jwtECDSASignerKeyManager)
    (some (.other (sampleTypeURL .jwtECDSASignerKeyManager)))

/-- A registry in which other implementations already hold the TypeURLs of the JWT
HMAC manager and of the JWT ECDSA signer manager. -/
def hmacAndSignerTaken : Registry :=
  Function.update signerTaken (sampleTypeURL .jwtHMACKeyManager)
    (some (.other (sampleTypeURL .jwtHMACKeyManager)))

/-! ## The body of `init` as a loop over the registration order -/

/-- Register the managers of `ms` one after the other, stopping with the diagnostic
of the first one whose registration returns an error. -/
def runSteps {σ ε : Type} (reg : KeyManager → σ → Option ε × σ) (verbV : ε → String) :
    List KeyManager → σ → Outcome σ
  | [], s => .returned s
  | m :: rest, s =>
    match reg m s with
    | (some err, s') => .panicked s' (diagnostic m (verbV err))
    | (none, s') => runSteps reg verbV rest s'

/-- The calls `runSteps` makes, each with the error it returned. -/
def traceSteps {σ ε : Type} (reg : KeyManager → σ → Option ε × σ) :
    List KeyManager → σ → List (KeyManager × Option ε)
  | [], _ => []
  | m :: rest, s =>
    match reg m s with
    | (some err, _) => [(m, some err)]
    | (none, s') => (m, none) :: traceSteps reg rest s'

/-- Two texts clash when they differ at a position both have. -/
def clash : List Char → List Char → Bool
  | a :: as, b :: bs => a != b || clash as bs
  | _, _ => false

theorem init_eq_runSteps {σ ε : Type} (reg : KeyManager → σ → Option ε × σ)
    (verbV : ε → String) (s : σ) :
    init reg verbV s = runSteps reg verbV registrationOrder s := by
  have h1 : ∀ t, "jwt.init() failed registering JWT HMAC key manager: " ++ t
      = diagnostic .jwtHMACKeyManager t := fun t => congrArg (· ++ t) (by decide)
  have h2 : ∀ t, "jwt.init() failed registering JWT ECDSA verifier key manager: " ++ t
      = diagnostic .jwtECDSAVerifierKeyManager t := fun t => congrArg (· ++ t) (by decide)
  have h3 : ∀ t, "jwt.init() failed registering JWT ECDSA signer key manager: " ++ t
      = diagnostic .jwtECDSASignerKeyManager t := fun t => congrArg (· ++ t) (by decide)
  have h4 : ∀ t, "jwt.init() failed registering JWT RSA SSA PKCS1 signer key manager: " ++ t
      = diagnostic .jwtRSSignerKeyManager t := fun t => congrArg (· ++ t) (by decide)
  have h5 : ∀ t, "jwt.init() failed registering JWT RSA SSA PKCS1 verifier key manager: " ++ t
      = diagnostic .jwtRSVerifierKeyManager t := fun t => congrArg (· ++ t) (by decide)
  have h6 : ∀ t, "jwt.init() failed registering JWT RSA SSA PSS signer key manager: " ++ t
      = diagnostic .jwtPSSignerKeyManager t := fun t => congrArg (· ++ t) (by decide)
  have h7 : ∀ t, "jwt.init() failed registering JWT RSA SSA PSS verifier key manager: " ++ t
      = diagnostic .jwtPSVerifierKeyManager t := fun t => congrArg (· ++ t) (by decide)
  simp only [init, h1, h2, h3, h4, h5, h6, h7, registrationOrder, runSteps]

theorem runSteps_recording {σ ε : Type} (reg : KeyManager → σ → Option ε × σ)
    (verbV : ε → String) (ms : List KeyManager) (s : σ) (log : List (KeyManager × Option ε)) :
    (runSteps (recording reg) verbV ms (s, log)).state
        = ((runSteps reg verbV ms s).state, log ++ traceSteps reg ms s)
      ∧ (runSteps (recording reg) verbV ms (s, log)).panicMsg
        = (runSteps reg verbV ms s).panicMsg := by
  induction ms generalizing s log with
  | nil => simp [runSteps, traceSteps, Outcome.state, Outcome.panicMsg]
  | cons m rest ih =>
    rcases hr : reg m s with ⟨_ | err, s'⟩
    · have := ih s' (log ++ [(m, none)])
      simpa [runSteps, traceSteps, recording, hr] using this
    · simp [runSteps, traceSteps, recording, hr, Outcome.state, Outcome.panicMsg]

theorem calls_eq_traceSteps {σ ε : Type} (reg : KeyManager → σ → Option ε × σ)
    (verbV : ε → String) (s : σ) :
    calls reg verbV s = traceSteps reg registrationOrder s := by
  simp [calls, init_eq_runSteps, runSteps_recording]

/-- A run either registers every manager of the list without error, or stops at the
first manager whose registration returns an error, with that manager's diagnostic. -/
theorem runSteps_cases {σ ε : Type} (reg : KeyManager → σ → Option ε × σ)
    (verbV : ε → String) (ms : List KeyManager) (s : σ) :
    (∃ s', runSteps reg verbV ms s = .returned s'
        ∧ traceSteps reg ms s = ms.map (fun m => (m, none)))
    ∨ (∃ pre m post e s', ms = pre ++ m :: post
        ∧ runSteps reg verbV ms s = .panicked s' (diagnostic m (verbV e))
        ∧ traceSteps reg ms s = pre.map (fun m => (m, none)) ++ [(m, some e)]) := by
  induction ms generalizing s with
  | nil => exact Or.inl ⟨s, rfl, rfl⟩
  | cons m rest ih =>
    rcases hr : reg m s with ⟨_ | err, s'⟩
    · rcases ih s' with ⟨s'', h1, h2⟩ | ⟨pre, k, post, e, s'', h0, h1, h2⟩
      · exact Or.inl ⟨s'', by simp [runSteps, hr, h1], by simp [traceSteps, hr, h2]⟩
      · exact Or.inr ⟨m :: pre, k, post, e, s'', by simp [h0], by simp [runSteps, hr, h1],
          by simp [traceSteps, hr, h2]⟩
    · exact Or.inr ⟨[], m, rest, err, s', rfl, by simp [runSteps, hr], by simp [traceSteps, hr]⟩

/-- The two ways a run of `init` can go, with the calls it makes. -/
theorem init_cases {σ ε : Type} (reg : KeyManager → σ → Option ε × σ)
    (verbV : ε → String) (s : σ) :
    (∃ s', init reg verbV s = .returned s'
        ∧ calls reg verbV s = registrationOrder.map (fun m => (m, none)))
    ∨ (∃ pre m post e s', registrationOrder = pre ++ m :: post
        ∧ init reg verbV s = .panicked s' (diagnostic m (verbV e))
        ∧ calls reg verbV s = pre.map (fun m => (m, none)) ++ [(m, some e)]) := by
  rw [init_eq_runSteps, calls_eq_traceSteps]
  exact runSteps_cases reg verbV registrationOrder s

theorem append_ne_of_clash (l₁ l₂ x y : List Char) (h : clash l₁ l₂ = true) :
    l₁ ++ x ≠ l₂ ++ y := by
  induction l₁ generalizing l₂ with
  | nil => simp [clash] at h
  | cons a as ih =>
    cases l₂ with
    | nil => simp [clash] at h
    | cons b bs =>
      simp only [clash, Bool.or_eq_true, bne_iff_ne, ne_eq] at h
      intro heq
      simp only [List.cons_append, List.cons.injEq] at heq
      rcases h with h | h
      · exact h heq.1
      · exact ih bs h heq.2

theorem heads_clash : ∀ a ∈ registrationOrder, ∀ b ∈ registrationOrder, a ≠ b →
    clash (diagnostic a "").data (diagnostic b "").data = true := by
  decide

theorem diagnostic_data (m : KeyManager) (t : String) :
    (diagnostic m t).data = (diagnostic m "").data ++ t.data := by
  simp [diagnostic, String.data_append]

theorem diagnostic_ne (a b : KeyManager) (ha : a ∈ registrationOrder)
    (hb : b ∈ registrationOrder) (hab : a ≠ b) (t₁ t₂ : String) :
    diagnostic a t₁ ≠ diagnostic b t₂ := by
  intro h
  have h' := congrArg String.data h
  rw [diagnostic_data a, diagnostic_data b] at h'
  exact append_ne_of_clash _ _ _ _ (heads_clash a ha b hb hab) h'

theorem foreign_descriptions_absent : ∀ a ∈ registrationOrder, ∀ b ∈ registrationOrder, a ≠ b →
    ¬ (describe b).data <:+: (diagnostic a "").data := by
  decide

/-! ## Facts about the specified registry -/

theorem register_keeps (typeURL : KeyManager → TypeURL) (m : KeyManager) (r : Registry)
    (u : TypeURL) (k : KeyManager) (h : r u = some k) : (register typeURL m r).2 u = some k := by
  unfold register
  split
  · next hnone =>
    have hu : u ≠ typeURL m := by
      intro hu
      rw [hu, hnone] at h
      exact Option.noConfusion h
    simp [Function.update_noteq hu, h]
  · split <;> exact h

theorem register_other (typeURL : KeyManager → TypeURL) (m : KeyManager) (r : Registry)
    (u : TypeURL) (hu : u ≠ typeURL m) : (register typeURL m r).2 u = r u := by
  unfold register
  split
  · simp [Function.update_noteq hu]
  · split <;> rfl

theorem register_stores (typeURL : KeyManager → TypeURL) (m : KeyManager) (r : Registry)
    (h : (register typeURL m r).1 = none) : (register typeURL m r).2 (typeURL m) = some m := by
  unfold register at h ⊢
  split
  · simp
  · next existing hex =>
    by_cases he : existing = m
    · simp [he] at hex ⊢
      exact hex
    · simp [hex, he] at h

theorem register_fails_iff (typeURL : KeyManager → TypeURL) (m : KeyManager) (r : Registry)
    (e : RegistryError) :
    (register typeURL m r).1 = some e
      ↔ e = .RegistrationConflict ∧ ∃ x, r (typeURL m) = some x ∧ x ≠ m := by
  unfold register
  split
  · next hnone => simp [hnone]
  · next existing hex =>
    by_cases he : existing = m
    · simp [hex, he]
    · simp only [hex, he, if_false, Option.some.injEq]
      constructor
      · intro h
        exact ⟨h.symm, existing, rfl, he⟩
      · intro h
        exact h.1.symm

theorem runSteps_keeps (typeURL : KeyManager → TypeURL) (verbV : RegistryError → String)
    (ms : List KeyManager) (r : Registry) (u : TypeURL) (k : KeyManager) (h : r u = some k) :
    (runSteps (register typeURL) verbV ms r).state u = some k := by
  induction ms generalizing r with
  | nil => exact h
  | cons m rest ih =>
    have hk := register_keeps typeURL m r u k h
    rcases hr : register typeURL m r with ⟨_ | err, r'⟩
    · rw [hr] at hk
      simpa [runSteps, hr] using ih r' hk
    · rw [hr] at hk
      simpa [runSteps, hr, Outcome.state] using hk

theorem runSteps_frame (typeURL : KeyManager → TypeURL) (verbV : RegistryError → String)
    (ms : List KeyManager) (r : Registry) (u : TypeURL)
    (h : ∀ c ∈ traceSteps (register typeURL) ms r, u ≠ typeURL c.1) :
    (runSteps (register typeURL) verbV ms r).state u = r u := by
  induction ms generalizing r with
  | nil => rfl
  | cons m rest ih =>
    rcases hr : register typeURL m r with ⟨_ | err, r'⟩
    · have hm : u ≠ typeURL m := h (m, none) (by simp [traceSteps, hr])
      have h1 := register_other typeURL m r u hm
      rw [hr] at h1
      have h2 := ih r' (fun c hc => h c (by simp [traceSteps, hr, hc]))
      simp only [runSteps, hr]
      rw [h2]
      exact h1
    · have hm : u ≠ typeURL m := h (m, some err) (by simp [traceSteps, hr])
      have h1 := register_other typeURL m r u hm
      rw [hr] at h1
      simpa [runSteps, hr, Outcome.state] using h1

theorem traceSteps_managers {σ ε : Type} (reg : KeyManager → σ → Option ε × σ)
    (ms : List KeyManager) (s : σ) : ∀ c ∈ traceSteps reg ms s, c.1 ∈ ms := by
  induction ms generalizing s with
  | nil => simp [traceSteps]
  | cons m rest ih =>
    intro c hc
    rcases hr : reg m s with ⟨_ | err, s'⟩
    · simp only [traceSteps, hr, List.mem_cons] at hc
      rcases hc with rfl | hc
      · simp
      · exact List.mem_cons_of_mem _ (ih s' c hc)
    · simp only [traceSteps, hr, List.mem_singleton] at hc
      subst hc
      simp

theorem runSteps_registered (typeURL : KeyManager → TypeURL) (verbV : RegistryError → String)
    (ms : List KeyManager) (r : Registry) (a : KeyManager)
    (h : (a, none) ∈ traceSteps (register typeURL) ms r) :
    (runSteps (register typeURL) verbV ms r).state (typeURL a) = some a := by
  induction ms generalizing r with
  | nil => simp [traceSteps] at h
  | cons m rest ih =>
    rcases hr : register typeURL m r with ⟨_ | err, r'⟩
    · simp only [traceSteps, hr, List.mem_cons, Prod.mk.injEq, and_true] at h
      simp only [runSteps, hr]
      rcases h with rfl | h
      · have hs := register_stores typeURL a r (by rw [hr])
        rw [hr] at hs
        exact runSteps_keeps typeURL verbV rest r' _ _ hs
      · exact ih r' h
    · simp [traceSteps, hr] at h

theorem runSteps_succeeds (typeURL : KeyManager → TypeURL) (verbV : RegistryError → String)
    (ms : List KeyManager) (r : Registry)
    (hd : ∀ a ∈ ms, ∀ b ∈ ms, typeURL a = typeURL b → a = b)
    (hc : ∀ a ∈ ms, ∀ x, r (typeURL a) = some x → x = a) :
    (runSteps (register typeURL) verbV ms r).panicMsg = none := by
  induction ms generalizing r with
  | nil => rfl
  | cons m rest ih =>
    rcases hr : register typeURL m r with ⟨_ | err, r'⟩
    · simp only [runSteps, hr]
      apply ih r' (fun a ha b hb => hd a (List.mem_cons_of_mem _ ha) b (List.mem_cons_of_mem _ hb))
      intro a ha x hx
      by_cases hu : typeURL a = typeURL m
      · have ham : a = m := hd a (List.mem_cons_of_mem _ ha) m (List.mem_cons_self _ _) hu
        have hs : r' (typeURL m) = some m := by
          simpa [hr] using register_stores typeURL m r (by rw [hr])
        rw [hu, hs] at hx
        rw [ham]
        exact (Option.some.inj hx).symm
      · have ho : r' (typeURL a) = r (typeURL a) := by
          simpa [hr] using register_other typeURL m r (typeURL a) hu
        exact hc a (List.mem_cons_of_mem _ ha) x (by rw [← ho]; exact hx)
    · exfalso
      have hf := (register_fails_iff typeURL m r err).1 (by rw [hr])
      obtain ⟨_, x, hx, hne⟩ := hf
      exact hne (hc m (List.mem_cons_self _ _) x hx)

theorem runSteps_append {σ ε : Type} (reg : KeyManager → σ → Option ε × σ)
    (verbV : ε → String) (pre rest : List KeyManager) (s : σ)
    (h : (runSteps reg verbV pre s).panicMsg = none) :
    runSteps reg verbV (pre ++ rest) s = runSteps reg verbV rest (runSteps reg verbV pre s).state := by
  induction pre generalizing s with
  | nil => rfl
  | cons m pre ih =>
    rcases hr : reg m s with ⟨_ | err, s'⟩
    · simp only [runSteps, hr, List.cons_append] at h ⊢
      exact ih s' h
    · simp [runSteps, hr, Outcome.panicMsg] at h

theorem runSteps_settled (typeURL : KeyManager → TypeURL) (verbV : RegistryError → String)
    (ms : List KeyManager) (r : Registry) (h : ∀ a ∈ ms, r (typeURL a) = some a) :
    runSteps (register typeURL) verbV ms r = .returned r := by
  induction ms with
  | nil => rfl
  | cons m rest ih =>
    have hm := h m (List.mem_cons_self _ _)
    have hr : register typeURL m r = (none, r) := by simp [register, hm]
    simp only [runSteps, hr]
    exact ih (fun a ha => h a (List.mem_cons_of_mem _ ha))

theorem returned_of_panicMsg_none {σ : Type} (o : Outcome σ) (h : o.panicMsg = none) :
    o = .returned o.state := by
  cases o with
  | returned s => rfl
  | panicked s msg => simp [Outcome.panicMsg] at h

theorem lookup_eq_ok (r : Registry) (u : TypeURL) (m : KeyManager) :
    lookup r u = .ok m ↔ r u = some m := by
  unfold lookup
  split <;> simp_all

theorem lookup_eq_error (r : Registry) (u : TypeURL) (e : RegistryError) :
    lookup r u = .error e ↔ r u = none ∧ e = .UnsupportedTypeURL := by
  unfold lookup
  split <;> simp_all [eq_comm]

theorem lookup_congr (r r' : Registry) (u : TypeURL) (h : r' u = r u) :
    lookup r' u = lookup r u := by
  unfold lookup
  rw [h]

theorem calls_managers_of_returned {σ ε : Type} (reg : KeyManager → σ → Option ε × σ)
    (verbV : ε → String) (s : σ)
    (h : calls reg verbV s = registrationOrder.map (fun m => (m, none))) :
    (calls reg verbV s).map Prod.fst = registrationOrder := by
  rw [h, List.map_map]
  exact List.map_id _

theorem calls_managers_of_panicked {σ ε : Type} (reg : KeyManager → σ → Option ε × σ)
    (verbV : ε → String) (s : σ) (pre : List KeyManager) (m : KeyManager) (e : ε)
    (h : calls reg verbV s = pre.map (fun m => (m, none)) ++ [(m, some e)]) :
    (calls reg verbV s).map Prod.fst = pre ++ [m] := by
  rw [h, List.map_append, List.map_map]
  exact congrArg (· ++ [m]) (List.map_id _)

theorem calls_managers_initial {σ ε : Type} (reg : KeyManager → σ → Option ε × σ)
    (verbV : ε → String) (s : σ) :
    (calls reg verbV s).map Prod.fst <+: registrationOrder := by
  rcases init_cases reg verbV s with ⟨s', _, h2⟩ | ⟨pre, m, post, e, s', h0, _, h2⟩
  · rw [calls_managers_of_returned reg verbV s h2]
  · rw [calls_managers_of_panicked reg verbV s pre m e h2, h0]
    exact ⟨post, by simp⟩

theorem init_registered (typeURL : KeyManager → TypeURL) (verbV : RegistryError → String)
    (r : Registry) (a : KeyManager) (h : (a, none) ∈ calls (register typeURL) verbV r) :
    (init (register typeURL) verbV r).state (typeURL a) = some a := by
  rw [calls_eq_traceSteps] at h
  rw [init_eq_runSteps]
  exact runSteps_registered typeURL verbV registrationOrder r a h

theorem init_registered_of_returned (typeURL : KeyManager → TypeURL)
    (verbV : RegistryError → String) (r r' : Registry)
    (h : init (register typeURL) verbV r = .returned r') :
    ∀ a ∈ registrationOrder, r' (typeURL a) = some a := by
  intro a ha
  have hst : r' = (init (register typeURL) verbV r).state := by rw [h]; rfl
  rw [hst]
  apply init_registered
  rcases init_cases (register typeURL) verbV r with ⟨_, _, h2⟩ | ⟨pre, m, post, e, s'', _, h1, _⟩
  · rw [h2]
    exact List.mem_map.2 ⟨a, ha, rfl⟩
  · rw [h1] at h
    exact Outcome.noConfusion h

theorem getElem?_calls {ε : Type} (pre : List KeyManager) (m' : KeyManager) (e' : ε)
    (k : Nat) (m : KeyManager) (e : ε)
    (h : (pre.map (fun a => (a, (none : Option ε))) ++ [(m', some e')])[k]? = some (m, some e)) :
    k = pre.length ∧ m = m' ∧ e = e' := by
  rcases Nat.lt_trichotomy k pre.length with hlt | heq | hgt
  · rw [List.getElem?_append_left (by simpa using hlt), List.getElem?_map] at h
    cases hp : pre[k]? <;> simp [hp] at h
  · subst heq
    rw [List.getElem?_append_right (by simp)] at h
    simp at h
    exact ⟨rfl, h.1.symm, h.2.symm⟩
  · rw [List.getElem?_append_right (by simp; omega)] at h
    have : k - (pre.map (fun a => (a, (none : Option ε)))).length ≠ 0 := by simp; omega
    obtain ⟨n, hn⟩ := Nat.exists_eq_succ_of_ne_zero this
    rw [hn] at h
    simp at h

/-! ## The claims -/

/-- C2: `init` panics if and only if one of the register calls it makes returns an
error.  A run that panics stops at the first call that returns an error: that call
is the last one made and every call before it returned no error.  A run in which no
call returns an error makes all seven calls and returns normally. -/
theorem init_panics_iff_register_fails {σ ε : Type}
    (reg : KeyManager → σ → Option ε × σ) (verbV : ε → String) (s : σ) :
    ((∃ s' msg, init reg verbV s = .panicked s' msg) ↔ ∃ c ∈ calls reg verbV s, c.2 ≠ none)
    ∧ ((∃ s' msg, init reg verbV s = .panicked s' msg) →
        ∃ pre c, calls reg verbV s = pre ++ [c] ∧ c.2 ≠ none ∧ ∀ d ∈ pre, d.2 = none)
    ∧ ((∀ c ∈ calls reg verbV s, c.2 = none) →
        (∃ s', init reg verbV s = .returned s')
          ∧ (calls reg verbV s).map Prod.fst = registrationOrder) := by
  rcases init_cases reg verbV s with ⟨s', h1, h2⟩ | ⟨pre, m, post, e, s', h0, h1, h2⟩
  · have hnone : ∀ c ∈ calls reg verbV s, c.2 = none := by
      intro c hc
      rw [h2, List.mem_map] at hc
      obtain ⟨a, _, rfl⟩ := hc
      rfl
    refine ⟨⟨?_, ?_⟩, ?_, ?_⟩
    · rintro ⟨s'', msg, h⟩
      rw [h1] at h
      exact Outcome.noConfusion h
    · rintro ⟨c, hc, hne⟩
      exact absurd (hnone c hc) hne
    · rintro ⟨s'', msg, h⟩
      rw [h1] at h
      exact Outcome.noConfusion h
    · intro _
      exact ⟨⟨s', h1⟩, calls_managers_of_returned reg verbV s h2⟩
  · have hmem : (m, some e) ∈ calls reg verbV s := by
      rw [h2]
      simp
    refine ⟨⟨fun _ => ⟨(m, some e), hmem, by simp⟩, fun _ => ⟨s', _, h1⟩⟩, ?_, ?_⟩
    · intro _
      refine ⟨pre.map (fun m => (m, none)), (m, some e), h2, by simp, ?_⟩
      intro d hd
      rw [List.mem_map] at hd
      obtain ⟨a, _, rfl⟩ := hd
      rfl
    · intro hall
      have := hall (m, some e) hmem
      simp at this

/-- C2, evaluated with a registry that refuses the RSA-PKCS1 verifier manager: `init`
panics, and the refused call is the last call made. -/
theorem init_panics_iff_register_fails_witness :
    (∃ s' msg, init (refusing .jwtRSVerifierKeyManager) id () = .panicked s' msg)
    ∧ ∃ pre c, calls (refusing .jwtRSVerifierKeyManager) id () = pre ++ [c] ∧ c.2 ≠ none
        ∧ ∀ d ∈ pre, d.2 = none :=
  have h := init_panics_iff_register_fails (refusing .jwtRSVerifierKeyManager) id ()
  have hp := h.1.2 ⟨(.jwtRSVerifierKeyManager, some "refused"), by decide, by decide⟩
  ⟨hp, h.2.1 hp⟩

/-- C6: the registration order lists seven managers of pairwise distinct
implementation types: the HMAC manager, then for ECDSA the verifier and the signer,
for RSA-PKCS1 the signer and the verifier, for RSA-PSS the signer and the verifier.
Whatever the registry does, the managers `init` passes to register are an initial
segment of that order, so each is passed at most once; a run that returns has passed
all seven; and of the call sequences of two runs one is an initial segment of the
other. -/
theorem init_registers_seven_in_fixed_order :
    registrationOrder.length = 7 ∧ registrationOrder.Nodup
    ∧ registrationOrder.map (fun m => (family m, role m))
        = [(some .HMAC, none), (some .ECDSA, some .verifier), (some .ECDSA, some .signer),
           (some .RSAPKCS1, some .signer), (some .RSAPKCS1, some .verifier),
           (some .RSAPSS, some .signer), (some .RSAPSS, some .verifier)]
    ∧ ∀ (σ ε : Type) (reg : KeyManager → σ → Option ε × σ) (verbV : ε → String),
        (∀ s, (calls reg verbV s).map Prod.fst <+: registrationOrder
            ∧ ((calls reg verbV s).map Prod.fst).Nodup)
        ∧ (∀ s s', init reg verbV s = .returned s' →
            (calls reg verbV s).map Prod.fst = registrationOrder)
        ∧ (∀ s₁ s₂, (calls reg verbV s₁).map Prod.fst <+: (calls reg verbV s₂).map Prod.fst
            ∨ (calls reg verbV s₂).map Prod.fst <+: (calls reg verbV s₁).map Prod.fst) := by
  have hnd : registrationOrder.Nodup := by decide
  refine ⟨rfl, hnd, rfl, ?_⟩
  intro σ ε reg verbV
  refine ⟨fun s => ⟨calls_managers_initial reg verbV s, ?_⟩, ?_, ?_⟩
  · exact List.Nodup.sublist (calls_managers_initial reg verbV s).sublist hnd
  · intro s s' h
    rcases init_cases reg verbV s with ⟨_, _, h2⟩ | ⟨pre, m, post, e, s'', _, h1, _⟩
    · exact calls_managers_of_returned reg verbV s h2
    · rw [h1] at h
      exact Outcome.noConfusion h
  · intro s₁ s₂
    exact List.prefix_or_prefix_of_prefix (calls_managers_initial reg verbV s₁)
      (calls_managers_initial reg verbV s₂)

/-- C6, evaluated with a registry that refuses no JWT manager: `init` returns and has
passed the seven managers in the registration order. -/
theorem init_registers_seven_in_fixed_order_witness :
    (calls (refusing (.other "")) id ()).map Prod.fst = registrationOrder :=
  (init_registers_seven_in_fixed_order.2.2.2 Unit String (refusing (.other "")) id).2.1 () ()
    (by decide)

/-- C3: when `init` panics, the message is the fixed text
`jwt.init() failed registering JWT <name> key manager: ` followed by the `%v` text of
the error, where `<name>` is the family and role of the manager whose register call
returned that error (the last call made).  The seven names are the ones listed; the
messages of two different managers differ whatever the error texts are, and the fixed
text of one manager's message does not contain the name of another. -/
theorem panic_message_identifies_failed_manager {σ ε : Type}
    (reg : KeyManager → σ → Option ε × σ) (verbV : ε → String) (s : σ) (msg : String)
    (h : (init reg verbV s).panicMsg = some msg) :
    (∃ pre m e, calls reg verbV s = pre ++ [(m, some e)] ∧ m ∈ registrationOrder
        ∧ msg = "jwt.init() failed registering JWT " ++ describe m ++ " key manager: "
                  ++ verbV e)
    ∧ registrationOrder.map describe
        = ["HMAC", "ECDSA verifier", "ECDSA signer", "RSA SSA PKCS1 signer",
           "RSA SSA PKCS1 verifier", "RSA SSA PSS signer", "RSA SSA PSS verifier"]
    ∧ (∀ a ∈ registrationOrder, ∀ b ∈ registrationOrder, a ≠ b →
        ∀ t₁ t₂, diagnostic a t₁ ≠ diagnostic b t₂)
    ∧ (∀ a ∈ registrationOrder, ∀ b ∈ registrationOrder, a ≠ b →
        ¬ (describe b).data <:+: (diagnostic a "").data) := by
  refine ⟨?_, by decide, fun a ha b hb hab t₁ t₂ => diagnostic_ne a b ha hb hab t₁ t₂,
    foreign_descriptions_absent⟩
  rcases init_cases reg verbV s with ⟨s', h1, _⟩ | ⟨pre, m, post, e, s', h0, h1, h2⟩
  · rw [h1] at h
    exact Option.noConfusion h
  · rw [h1] at h
    have hmsg : diagnostic m (verbV e) = msg := Option.some.inj h
    refine ⟨pre.map (fun m => (m, none)), m, e, h2, ?_, ?_⟩
    · rw [h0]
      simp
    · rw [← hmsg]
      rfl

/-- C3, evaluated: when the registry refuses the ECDSA signer manager, the panic
message names the ECDSA signer and ends with the error's text. -/
theorem panic_message_identifies_failed_manager_witness :
    (init (refusing .jwtECDSASignerKeyManager) id ()).panicMsg
        = some "jwt.init() failed registering JWT ECDSA signer key manager: refused"
    ∧ ∃ pre m e, calls (refusing .jwtECDSASignerKeyManager) id () = pre ++ [(m, some e)]
        ∧ m ∈ registrationOrder
        ∧ "jwt.init() failed registering JWT ECDSA signer key manager: refused"
            = "jwt.init() failed registering JWT " ++ describe m ++ " key manager: " ++ id e :=
  ⟨by decide,
   (panic_message_identifies_failed_manager (refusing .jwtECDSASignerKeyManager) id ()
      "jwt.init() failed registering JWT ECDSA signer key manager: refused" (by decide)).1⟩

/-- C4, refuted as stated: when the registry refuses the ECDSA signer manager, a
register call of `init` returns an error, and `init` does not return: it panics. -/
theorem init_panics_instead_of_returning_error :
    (KeyManager.jwtECDSASignerKeyManager, some "refused")
        ∈ calls (refusing .jwtECDSASignerKeyManager) id ()
    ∧ init (refusing .jwtECDSASignerKeyManager) id ()
        = .panicked () "jwt.init() failed registering JWT ECDSA signer key manager: refused"
    ∧ ¬ ∃ s', init (refusing .jwtECDSASignerKeyManager) id () = .returned s' := by
  refine ⟨by decide, by decide, ?_⟩
  rintro ⟨s', h⟩
  have hp : (init (refusing .jwtECDSASignerKeyManager) id ()).panicMsg ≠ none := by decide
  rw [h] at hp
  exact hp rfl

/-- C4, amended: `init` has no result value and reports a failed registration by
panicking itself.  Whenever a register call it makes, of manager `m`, returns an
error `e`, then `m` is one of the seven managers, that call is the last one made,
`init` panics with the message naming `m` and ending in the `%v` text of that very
error `e`, and `init` does not return. -/
theorem init_reports_failure_by_panic {σ ε : Type}
    (reg : KeyManager → σ → Option ε × σ) (verbV : ε → String) (s : σ)
    (m : KeyManager) (e : ε) (h : (m, some e) ∈ calls reg verbV s) :
    m ∈ registrationOrder
    ∧ (∃ pre, calls reg verbV s = pre ++ [(m, some e)] ∧ ∀ d ∈ pre, d.2 = none)
    ∧ (∃ s', init reg verbV s = .panicked s'
        ("jwt.init() failed registering JWT " ++ describe m ++ " key manager: " ++ verbV e))
    ∧ ¬ ∃ s', init reg verbV s = .returned s' := by
  rcases init_cases reg verbV s with ⟨s', _, h2⟩ | ⟨pre, m', post, e', s', h0, h1, h2⟩
  · rw [h2, List.mem_map] at h
    obtain ⟨a, _, ha⟩ := h
    exact absurd (congrArg Prod.snd ha) (by simp)
  · have hme : m = m' ∧ e = e' := by
      rw [h2, List.mem_append, List.mem_map, List.mem_singleton] at h
      rcases h with ⟨a, _, ha⟩ | h
      · exact absurd (congrArg Prod.snd ha) (by simp)
      · exact ⟨congrArg Prod.fst h, Option.some.inj (congrArg Prod.snd h)⟩
    obtain ⟨rfl, rfl⟩ := hme
    refine ⟨?_, ⟨pre.map (fun a => (a, none)), h2, ?_⟩, ⟨s', h1⟩, ?_⟩
    · rw [h0]
      simp
    · intro d hd
      rw [List.mem_map] at hd
      obtain ⟨a, _, rfl⟩ := hd
      rfl
    · rintro ⟨s'', h'⟩
      rw [h1] at h'
      exact Outcome.noConfusion h'

/-- C4 amended, evaluated with a registry that refuses the RSA-PSS verifier manager
with the error `"refused"`: `init` panics with the RSA-PSS verifier message ending in
`refused`, and does not return. -/
theorem init_reports_failure_by_panic_witness :
    (KeyManager.jwtPSVerifierKeyManager, some "refused")
        ∈ calls (refusing .jwtPSVerifierKeyManager) id ()
    ∧ (∃ s', init (refusing .jwtPSVerifierKeyManager) id () = .panicked s'
        ("jwt.init() failed registering JWT " ++ describe .jwtPSVerifierKeyManager
          ++ " key manager: " ++ id "refused"))
    ∧ ¬ ∃ s', init (refusing .jwtPSVerifierKeyManager) id () = .returned s' :=
  have h := init_reports_failure_by_panic (refusing .jwtPSVerifierKeyManager) id ()
    .jwtPSVerifierKeyManager "refused" (by decide)
  ⟨by decide, h.2.2.1, h.2.2.2⟩

/-- C1: with pairwise distinct TypeURLs for the seven managers, and a registry in
which none of these TypeURLs has an entry, `init` returns without panicking, and
afterwards looking up the TypeURL of each of the seven managers gives that manager. -/
theorem init_registers_all_seven (typeURL : KeyManager → TypeURL)
    (verbV : RegistryError → String) (r : Registry) (hd : DistinctTypeURLs typeURL)
    (hfree : ∀ m ∈ registrationOrder, lookup r (typeURL m) = .error .UnsupportedTypeURL) :
    (∃ r', init (register typeURL) verbV r = .returned r')
    ∧ ∀ m ∈ registrationOrder,
        lookup (init (register typeURL) verbV r).state (typeURL m) = .ok m := by
  have hok : (init (register typeURL) verbV r).panicMsg = none := by
    rw [init_eq_runSteps]
    apply runSteps_succeeds typeURL verbV registrationOrder r hd
    intro a ha x hx
    have := ((lookup_eq_error r (typeURL a) _).1 (hfree a ha)).1
    rw [this] at hx
    exact Option.noConfusion hx
  have hret := returned_of_panicMsg_none _ hok
  refine ⟨⟨_, hret⟩, ?_⟩
  intro m hm
  exact (lookup_eq_ok _ _ _).2 (init_registered_of_returned typeURL verbV r _ hret m hm)

/-- C1, evaluated on the empty registry with the sample TypeURLs. -/
theorem init_registers_all_seven_witness :
    (∃ r', init (register sampleTypeURL) sampleVerbV emptyRegistry = .returned r')
    ∧ ∀ m ∈ registrationOrder,
        lookup (init (register sampleTypeURL) sampleVerbV emptyRegistry).state (sampleTypeURL m)
          = .ok m :=
  init_registers_all_seven sampleTypeURL sampleVerbV emptyRegistry (by unfold DistinctTypeURLs; decide)
    (by decide)

/-- C5: if a run of `init` returns with registry `r₁`, a second run of `init` from
`r₁` also returns, and with the very same registry `r₁`. -/
theorem init_rerun_is_idempotent (typeURL : KeyManager → TypeURL)
    (verbV : RegistryError → String) (r r₁ : Registry)
    (h : init (register typeURL) verbV r = .returned r₁) :
    init (register typeURL) verbV r₁ = .returned r₁ := by
  rw [init_eq_runSteps]
  exact runSteps_settled typeURL verbV registrationOrder r₁
    (init_registered_of_returned typeURL verbV r r₁ h)

/-- C5, evaluated: the run from the empty registry returns, and so does a second run
from the registry it leaves, without changing it. -/
theorem init_rerun_is_idempotent_witness :
    init (register sampleTypeURL) sampleVerbV
        (init (register sampleTypeURL) sampleVerbV emptyRegistry).state
      = .returned (init (register sampleTypeURL) sampleVerbV emptyRegistry).state :=
  init_rerun_is_idempotent sampleTypeURL sampleVerbV emptyRegistry _
    (returned_of_panicMsg_none _ (by decide))

/-- C8: for a TypeURL `u` that is not equal to the TypeURL of any of the seven
managers, lookup of `u` gives the same result after `init` as before, whether `init`
returned or panicked; in particular an absent `u` is still `UnsupportedTypeURL`. -/
theorem init_touches_only_its_typeURLs (typeURL : KeyManager → TypeURL)
    (verbV : RegistryError → String) (r : Registry) (u : TypeURL)
    (hu : ∀ m ∈ registrationOrder, u ≠ typeURL m) :
    lookup (init (register typeURL) verbV r).state u = lookup r u
    ∧ (lookup r u = .error .UnsupportedTypeURL →
        lookup (init (register typeURL) verbV r).state u = .error .UnsupportedTypeURL) := by
  have hframe : lookup (init (register typeURL) verbV r).state u = lookup r u := by
    apply lookup_congr
    rw [init_eq_runSteps]
    apply runSteps_frame
    intro c hc
    exact hu c.1 (traceSteps_managers _ _ _ c hc)
  exact ⟨hframe, fun h => by rw [hframe, h]⟩

/-- C8, evaluated: a TypeURL that is the HMAC manager's TypeURL without its last
three characters has no entry before `init` and none after. -/
theorem init_touches_only_its_typeURLs_witness :
    lookup (init (register sampleTypeURL) sampleVerbV emptyRegistry).state
        "type.googleapis.com/google.crypto.tink.JwtHmac"
      = lookup emptyRegistry "type.googleapis.com/google.crypto.tink.JwtHmac"
    ∧ (lookup emptyRegistry "type.googleapis.com/google.crypto.tink.JwtHmac"
          = .error .UnsupportedTypeURL →
        lookup (init (register sampleTypeURL) sampleVerbV emptyRegistry).state
          "type.googleapis.com/google.crypto.tink.JwtHmac" = .error .UnsupportedTypeURL) :=
  init_touches_only_its_typeURLs sampleTypeURL sampleVerbV emptyRegistry
    "type.googleapis.com/google.crypto.tink.JwtHmac" (by decide)

/-- C7, refuted as stated: in a registry where other implementations hold both the
HMAC manager's TypeURL and the ECDSA signer's TypeURL `T`, `init` panics with the
diagnostic of the HMAC manager, not with a diagnostic of the ECDSA signer manager,
which is the one that claims `T`. -/
theorem abort_names_first_conflict_only :
    lookup hmacAndSignerTaken (sampleTypeURL .jwtECDSASignerKeyManager)
        = .ok (.other (sampleTypeURL .jwtECDSASignerKeyManager))
    ∧ KeyManager.other (sampleTypeURL .jwtECDSASignerKeyManager) ≠ .jwtECDSASignerKeyManager
    ∧ (init (register sampleTypeURL) sampleVerbV hmacAndSignerTaken).panicMsg
        = some "jwt.init() failed registering JWT HMAC key manager: RegistrationConflict"
    ∧ ∀ t, (init (register sampleTypeURL) sampleVerbV hmacAndSignerTaken).panicMsg
        ≠ some (diagnostic .jwtECDSASignerKeyManager t) := by
  refine ⟨by decide, by decide, by decide, ?_⟩
  intro t h
  have hp : (init (register sampleTypeURL) sampleVerbV hmacAndSignerTaken).panicMsg
      = some (diagnostic .jwtHMACKeyManager "RegistrationConflict") := by decide
  rw [hp] at h
  exact diagnostic_ne .jwtHMACKeyManager .jwtECDSASignerKeyManager (by decide) (by decide)
    (by decide) _ _ (Option.some.inj h)

/-- C7, amended: if the TypeURL of one of the seven managers is held by a different
implementation, `init` panics and that TypeURL still gives the implementation that
held it.  With pairwise distinct TypeURLs the diagnostic is that of the first manager
in the registration order whose TypeURL is held by a different implementation.  Every
TypeURL that has an entry before `init` gives the same manager after it, whether
`init` returned or panicked. -/
theorem init_aborts_at_first_conflict (typeURL : KeyManager → TypeURL)
    (verbV : RegistryError → String) (r : Registry) :
    (∀ m ∈ registrationOrder, ∀ x, lookup r (typeURL m) = .ok x → x ≠ m →
        (∃ r' msg, init (register typeURL) verbV r = .panicked r' msg)
          ∧ lookup (init (register typeURL) verbV r).state (typeURL m) = .ok x)
    ∧ (DistinctTypeURLs typeURL → ∀ pre m post x, registrationOrder = pre ++ m :: post →
        (∀ a ∈ pre, ∀ y, lookup r (typeURL a) = .ok y → y = a) →
        lookup r (typeURL m) = .ok x → x ≠ m →
        (init (register typeURL) verbV r).panicMsg
          = some (diagnostic m (verbV .RegistrationConflict)))
    ∧ (∀ u k, lookup r u = .ok k → lookup (init (register typeURL) verbV r).state u = .ok k) := by
  have hkeep : ∀ u k, lookup r u = .ok k →
      lookup (init (register typeURL) verbV r).state u = .ok k := by
    intro u k h
    rw [lookup_eq_ok] at h ⊢
    rw [init_eq_runSteps]
    exact runSteps_keeps typeURL verbV registrationOrder r u k h
  refine ⟨?_, ?_, hkeep⟩
  · intro m hm x hx hne
    refine ⟨?_, hkeep _ _ hx⟩
    rcases init_cases (register typeURL) verbV r with ⟨r', h1, _⟩ | ⟨_, k, _, e, r', _, h1, _⟩
    · exfalso
      have h2 := init_registered_of_returned typeURL verbV r r' h1 m hm
      have h3 := (lookup_eq_ok _ _ _).1 (hkeep _ _ hx)
      rw [h1] at h3
      simp only [Outcome.state] at h3
      rw [h2] at h3
      exact hne (Option.some.inj h3).symm
    · exact ⟨r', _, h1⟩
  · intro hd pre m post x hsplit hpre hx hne
    have hdpre : ∀ a ∈ pre, ∀ b ∈ pre, typeURL a = typeURL b → a = b := by
      intro a ha b hb
      exact hd a (by rw [hsplit]; simp [ha]) b (by rw [hsplit]; simp [hb])
    have hok : (runSteps (register typeURL) verbV pre r).panicMsg = none :=
      runSteps_succeeds typeURL verbV pre r hdpre
        (fun a ha y hy => hpre a ha y ((lookup_eq_ok _ _ _).2 hy))
    have hx' := runSteps_keeps typeURL verbV pre r (typeURL m) x ((lookup_eq_ok _ _ _).1 hx)
    rw [init_eq_runSteps, hsplit, runSteps_append _ _ _ _ _ hok]
    have hreg : register typeURL m (runSteps (register typeURL) verbV pre r).state
        = (some .RegistrationConflict, (runSteps (register typeURL) verbV pre r).state) := by
      simp [register, hx', hne]
    simp [runSteps, hreg, Outcome.panicMsg]

/-- C7 amended, evaluated: with only the ECDSA signer's TypeURL taken by another
implementation, `init` panics with the diagnostic of the ECDSA signer manager. -/
theorem init_aborts_at_first_conflict_witness :
    (init (register sampleTypeURL) sampleVerbV signerTaken).panicMsg
      = some (diagnostic .jwtECDSASignerKeyManager (sampleVerbV .RegistrationConflict)) :=
  (init_aborts_at_first_conflict sampleTypeURL sampleVerbV signerTaken).2.1
    (by unfold DistinctTypeURLs; decide)
    [.jwtHMACKeyManager, .jwtECDSAVerifierKeyManager] .jwtECDSASignerKeyManager
    [.jwtRSSignerKeyManager, .jwtRSVerifierKeyManager, .jwtPSSignerKeyManager,
     .jwtPSVerifierKeyManager]
    (.other (sampleTypeURL .jwtECDSASignerKeyManager)) rfl
    (by intro a ha y hy
        simp only [List.mem_cons, List.mem_singleton, List.not_mem_nil, or_false] at ha
        rcases ha with rfl | rfl
        · rw [show lookup signerTaken (sampleTypeURL .jwtHMACKeyManager)
              = .error .UnsupportedTypeURL from by decide] at hy
          exact Except.noConfusion hy
        · rw [show lookup signerTaken (sampleTypeURL .jwtECDSAVerifierKeyManager)
              = .error .UnsupportedTypeURL from by decide] at hy
          exact Except.noConfusion hy)
    (by decide) (by decide)

/-- C9: if the call of `init` at position `k` (counted from 0) is of manager `m` and
returns the error `e`, then `m` is the manager at position `k` of the registration
order and `init` panics with its diagnostic; the managers passed to register are
exactly the first `k + 1` of the order, so no later manager is passed; every manager
before position `k` was registered without error and is still found under its
TypeURL; and, with pairwise distinct TypeURLs, a manager after position `k` whose
TypeURL had no entry before has none after. -/
theorem failed_startup_keeps_earlier_skips_later (typeURL : KeyManager → TypeURL)
    (verbV : RegistryError → String) (r : Registry) (k : Nat) (m : KeyManager)
    (e : RegistryError)
    (hk : (calls (register typeURL) verbV r)[k]? = some (m, some e)) :
    registrationOrder[k]? = some m
    ∧ (init (register typeURL) verbV r).panicMsg = some (diagnostic m (verbV e))
    ∧ (calls (register typeURL) verbV r).map Prod.fst = registrationOrder.take (k + 1)
    ∧ (∀ a ∈ registrationOrder.take k, (a, none) ∈ calls (register typeURL) verbV r
        ∧ lookup (init (register typeURL) verbV r).state (typeURL a) = .ok a)
    ∧ (DistinctTypeURLs typeURL → ∀ b ∈ registrationOrder.drop (k + 1),
        lookup r (typeURL b) = .error .UnsupportedTypeURL →
        lookup (init (register typeURL) verbV r).state (typeURL b)
          = .error .UnsupportedTypeURL) := by
  rcases init_cases (register typeURL) verbV r with ⟨_, _, h2⟩ | ⟨pre, m', post, e', r', h0, h1, h2⟩
  · exfalso
    rw [h2, List.getElem?_map] at hk
    cases hp : registrationOrder[k]? <;> simp [hp] at hk
  · rw [h2] at hk
    obtain ⟨hlen, rfl, rfl⟩ := getElem?_calls pre m' e' k m e hk
    have hsplit : registrationOrder = (pre ++ [m]) ++ post := by rw [h0]; simp
    have hnd : (pre ++ [m] ++ post).Nodup := by
      rw [← hsplit]
      decide
    refine ⟨?_, ?_, ?_, ?_, ?_⟩
    · rw [h0, hlen, List.getElem?_append_right (le_refl _)]
      simp
    · rw [h1]
      rfl
    · rw [calls_managers_of_panicked _ _ _ pre m e h2, hsplit]
      exact (List.take_left' (by simp [hlen])).symm
    · intro a ha
      have hpre : registrationOrder.take k = pre := by
        rw [h0]
        exact List.take_left' hlen.symm
      rw [hpre] at ha
      have hmem : (a, none) ∈ calls (register typeURL) verbV r := by
        rw [h2]
        simp [ha]
      exact ⟨hmem, (lookup_eq_ok _ _ _).2 (init_registered typeURL verbV r a hmem)⟩
    · intro hd b hb hfree
      have hpost : registrationOrder.drop (k + 1) = post := by
        rw [hsplit]
        exact List.drop_left' (by simp [hlen])
      rw [hpost] at hb
      rw [← hfree]
      apply lookup_congr
      rw [init_eq_runSteps]
      apply runSteps_frame
      intro c hc hu
      have hc1 : c.1 ∈ pre ++ [m] := by
        rw [← calls_eq_traceSteps (register typeURL) verbV r] at hc
        rw [← calls_managers_of_panicked _ _ _ pre m e h2]
        exact List.mem_map.2 ⟨c, hc, rfl⟩
      have hbc : b = c.1 :=
        hd b (by rw [hsplit]; exact List.mem_append_right _ hb) c.1
          (by rw [hsplit]; exact List.mem_append_left _ hc1) hu
      rw [List.nodup_append] at hnd
      exact hnd.2.2 (hbc ▸ hc1) hb

/-- C9, evaluated: with the ECDSA signer's TypeURL taken, the call at position 2
fails; the HMAC and ECDSA verifier managers stay registered, the four managers after
the ECDSA signer are never passed to register and still have no entry. -/
theorem failed_startup_keeps_earlier_skips_later_witness :
    (calls (register sampleTypeURL) sampleVerbV signerTaken).map Prod.fst
      = registrationOrder.take (2 + 1)
    ∧ (∀ a ∈ registrationOrder.take 2,
        (a, none) ∈ calls (register sampleTypeURL) sampleVerbV signerTaken
        ∧ lookup (init (register sampleTypeURL) sampleVerbV signerTaken).state (sampleTypeURL a)
            = .ok a)
    ∧ ∀ b ∈ registrationOrder.drop (2 + 1),
        lookup signerTaken (sampleTypeURL b) = .error .UnsupportedTypeURL →
        lookup (init (register sampleTypeURL) sampleVerbV signerTaken).state (sampleTypeURL b)
          = .error .UnsupportedTypeURL :=
  have h := failed_startup_keeps_earlier_skips_later sampleTypeURL sampleVerbV signerTaken 2
    .jwtECDSASignerKeyManager .RegistrationConflict (by decide)
  ⟨h.2.2.1, h.2.2.2.1, h.2.2.2.2 (by unfold DistinctTypeURLs; decide)⟩

end Jwt
